import Mathlib

/-!
# Verification of psf-guard's sequence analyzer, catalog reset, cache state
machine and path resolver

Shallow embedding of the relevant parts of the psf-guard source
(`src/sequence_analysis.rs`, `src/db.rs`, `src/server/state.rs`,
`src/server/handlers.rs`) together with theorems settling the spec claims.

Modelling conventions:
* Rust `f64` values are modelled as exact rationals (`ℚ`); the floating-point
  literals of the source (`0.05`, `0.7`, `1e-10`, `f64::EPSILON` = 2⁻⁵²)
  become the corresponding exact rationals.
* Rust `i64`/`i32` become `ℤ`, `usize` becomes `ℕ` (no arithmetic here comes
  near the overflow boundary).
* `Vec<T>` becomes `List T`, `Option<T>` becomes `Option T`.
* Rust's stable `sort_by_key` is modelled by `List.insertionSort` on the key
  order, which has the same (stable) specification.
* The `details : Option<String>` field of `ImageQualityResult` (a
  human-readable message string) is omitted from the embedding; no claim
  refers to it and it influences nothing else.
-/

unseal Rat.add Rat.sub Rat.mul Rat.inv

namespace PsfGuard

/-- `f64::EPSILON` (2⁻⁵²), used by the normalizers (sequence_analysis.rs:401,420). -/
def f64Epsilon : ℚ := 1 / 2 ^ 52

/-- The literal `1e-10` used as zero-guard (sequence_analysis.rs:112,446,634,653). -/
def smallEpsilon : ℚ := 1 / 10 ^ 10

/-- Rust `f64::clamp(lo, hi)` (for `lo ≤ hi`). -/
def ratClamp (x lo hi : ℚ) : ℚ := min (max x lo) hi

/-- Issue categories (sequence_analysis.rs, `enum IssueCategory`). -/
inductive IssueCategory where
  | likelyClouds
  | possibleObstruction
  | focusDrift
  | trackingError
  | windShake
  | skyBrightening
  | unknownDegradation
deriving Repr, DecidableEq

/-- Per-image normalized metric values (sequence_analysis.rs, `NormalizedMetrics`). -/
structure NormalizedMetrics where
  star_count : Option ℚ
  hfr : Option ℚ
  eccentricity : Option ℚ
  snr : Option ℚ
  background : Option ℚ
deriving Repr, DecidableEq

/-- Quality analysis result for one image (sequence_analysis.rs,
`ImageQualityResult`); the human-readable `details` string is omitted. -/
structure ImageQualityResult where
  image_id : ℤ
  quality_score : ℚ
  temporal_anomaly_score : ℚ
  category : Option IssueCategory
  normalized_metrics : NormalizedMetrics
deriving Repr, DecidableEq

/-- Best metrics observed in a sequence (sequence_analysis.rs, `ReferenceValues`). -/
structure ReferenceValues where
  best_star_count : Option ℚ
  best_hfr : Option ℚ
  best_eccentricity : Option ℚ
  best_snr : Option ℚ
  best_background : Option ℚ
deriving Repr, DecidableEq

/-- Summary statistics for a scored sequence (sequence_analysis.rs, `SequenceSummary`). -/
structure SequenceSummary where
  excellent_count : ℕ
  good_count : ℕ
  fair_count : ℕ
  poor_count : ℕ
  bad_count : ℕ
  cloud_events_detected : ℕ
  focus_drift_detected : Bool
  tracking_issues_detected : Bool
deriving Repr, DecidableEq

/-- Raw metric values of one image (sequence_analysis.rs, `ImageMetrics`). -/
structure ImageMetrics where
  image_id : ℤ
  timestamp : Option ℤ
  star_count : Option ℚ
  hfr : Option ℚ
  eccentricity : Option ℚ
  snr : Option ℚ
  background : Option ℚ
deriving Repr, DecidableEq

/-- A scored sequence (sequence_analysis.rs, `ScoredSequence`). -/
structure ScoredSequence where
  target_id : ℤ
  target_name : String
  filter_name : String
  session_start : Option ℤ
  session_end : Option ℤ
  image_count : ℕ
  reference_values : ReferenceValues
  images : List ImageQualityResult
  summary : SequenceSummary
deriving Repr, DecidableEq

/-- Composite-score weights (sequence_analysis.rs, `QualityWeights`). -/
structure QualityWeights where
  star_count : ℚ
  hfr : ℚ
  eccentricity : ℚ
  snr : ℚ
  background : ℚ
deriving Repr, DecidableEq

/-- `QualityWeights::default()`. -/
def QualityWeights.default : QualityWeights :=
  { star_count := 30/100, hfr := 25/100, eccentricity := 10/100
    snr := 25/100, background := 10/100 }

/-- `QualityWeights::normalized` (sequence_analysis.rs:110): rescale so the five
weights sum to 1; all-zero weights fall back to the defaults. -/
def QualityWeights.normalized (w : QualityWeights) : QualityWeights :=
  let sum := w.star_count + w.hfr + w.eccentricity + w.snr + w.background
  if sum < smallEpsilon then QualityWeights.default
  else if |sum - 1| < smallEpsilon then w
  else
    { star_count := w.star_count / sum, hfr := w.hfr / sum
      eccentricity := w.eccentricity / sum, snr := w.snr / sum
      background := w.background / sum }

/-- Temporal-anomaly weights (sequence_analysis.rs, `TemporalWeights`). -/
structure TemporalWeights where
  star_count : ℚ
  background : ℚ
  hfr : ℚ
  snr : ℚ
deriving Repr, DecidableEq

/-- `TemporalWeights::default()`. -/
def TemporalWeights.default : TemporalWeights :=
  { star_count := 40/100, background := 25/100, hfr := 20/100, snr := 15/100 }

/-- Analyzer configuration (sequence_analysis.rs, `SequenceAnalyzerConfig`). -/
structure SequenceAnalyzerConfig where
  session_gap_minutes : ℕ
  min_sequence_length : ℕ
  ewma_alpha : ℚ
  quality_weights : QualityWeights
  temporal_weights : TemporalWeights
  star_drop_threshold : ℚ
  bg_rise_threshold : ℚ
  hfr_rise_threshold : ℚ
  sudden_change_rate : ℚ
deriving Repr, DecidableEq

/-- `SequenceAnalyzerConfig::default()`. -/
def SequenceAnalyzerConfig.default : SequenceAnalyzerConfig :=
  { session_gap_minutes := 60, min_sequence_length := 3, ewma_alpha := 3/10
    quality_weights := QualityWeights.default
    temporal_weights := TemporalWeights.default
    star_drop_threshold := 25/100, bg_rise_threshold := 10/100
    hfr_rise_threshold := 15/100, sudden_change_rate := 15/100 }

/-- `SequenceAnalyzer::new` (sequence_analysis.rs:184): the stored config has
its quality weights normalized. -/
def newAnalyzer (config : SequenceAnalyzerConfig) : SequenceAnalyzerConfig :=
  { config with quality_weights := config.quality_weights.normalized }

/-- `percentile_bounds` (sequence_analysis.rs:741): 5th/95th percentile values
of a slice, via sorting and index selection. -/
def percentile_bounds (values : List ℚ) : ℚ × ℚ :=
  if values.isEmpty then (0, 0)
  else
    let sorted := values.insertionSort (· ≤ ·)
    let n := sorted.length
    let p5_idx := min ⌊(n : ℚ) * (5/100)⌋.toNat (n - 1)
    let p95_idx := min ⌈(n : ℚ) * (95/100)⌉.toNat (n - 1)
    (sorted.getD p5_idx 0, sorted.getD p95_idx 0)

/-- `SequenceAnalyzer::normalize_metric_higher_better` (sequence_analysis.rs:394). -/
def normalize_metric_higher_better (values : List (Option ℚ)) : List (Option ℚ) :=
  let valid := values.filterMap id
  if valid.isEmpty then values.map fun _ => none
  else
    let p := percentile_bounds valid
    let p5 := p.1
    let p95 := p.2
    if |p95 - p5| < f64Epsilon then values.map fun v => v.map fun _ => 1
    else values.map fun v => v.map fun val => ratClamp ((val - p5) / (p95 - p5)) 0 1

/-- `SequenceAnalyzer::normalize_metric_lower_better` (sequence_analysis.rs:413). -/
def normalize_metric_lower_better (values : List (Option ℚ)) : List (Option ℚ) :=
  let valid := values.filterMap id
  if valid.isEmpty then values.map fun _ => none
  else
    let p := percentile_bounds valid
    let p5 := p.1
    let p95 := p.2
    if |p95 - p5| < f64Epsilon then values.map fun v => v.map fun _ => 1
    else values.map fun v => v.map fun val => ratClamp ((p95 - val) / (p95 - p5)) 0 1

/-- EWMA baselines carried through `compute_temporal_scores`
(sequence_analysis.rs:438-441, local mutable state of the loop). -/
structure TemporalBaselines where
  bl_stars : Option ℚ
  bl_bg : Option ℚ
  bl_hfr : Option ℚ
  bl_snr : Option ℚ
deriving Repr, DecidableEq

/-- Deviation where a drop below baseline is bad (star count, SNR;
sequence_analysis.rs:449,482): `((bl − val)/bl).max(0)` guarded by `|bl| > 1e-10`. -/
def dropDeviation (v bl : Option ℚ) : ℚ :=
  match v, bl with
  | some val, some b => if smallEpsilon < |b| then max ((b - val) / b) 0 else 0
  | _, _ => 0

/-- Deviation where a rise above baseline is bad (background, HFR;
sequence_analysis.rs:460,471): `((val − bl)/bl).max(0)` guarded by `|bl| > 1e-10`. -/
def riseDeviation (v bl : Option ℚ) : ℚ :=
  match v, bl with
  | some val, some b => if smallEpsilon < |b| then max ((val - b) / b) 0 else 0
  | _, _ => 0

/-- EWMA baseline update (sequence_analysis.rs:498-521): a present value blends
into the baseline with factor α, a missing value leaves it unchanged. -/
def updateBaseline (alpha : ℚ) (v bl : Option ℚ) : Option ℚ :=
  match v with
  | none => bl
  | some val =>
    some (match bl with
          | some b => alpha * val + (1 - alpha) * b
          | none => val)

/-- Loop body of `compute_temporal_scores`: emit this image's weighted deviation
score, then update the four baselines. -/
def temporalGo (cfg : SequenceAnalyzerConfig) (bls : TemporalBaselines) :
    List ImageMetrics → List ℚ
  | [] => []
  | img :: rest =>
    let tw := cfg.temporal_weights
    let score := tw.star_count * dropDeviation img.star_count bls.bl_stars
      + tw.background * riseDeviation img.background bls.bl_bg
      + tw.hfr * riseDeviation img.hfr bls.bl_hfr
      + tw.snr * dropDeviation img.snr bls.bl_snr
    score :: temporalGo cfg
      { bl_stars := updateBaseline cfg.ewma_alpha img.star_count bls.bl_stars
        bl_bg := updateBaseline cfg.ewma_alpha img.background bls.bl_bg
        bl_hfr := updateBaseline cfg.ewma_alpha img.hfr bls.bl_hfr
        bl_snr := updateBaseline cfg.ewma_alpha img.snr bls.bl_snr } rest

/-- `SequenceAnalyzer::compute_temporal_scores` (sequence_analysis.rs:431). -/
def compute_temporal_scores (cfg : SequenceAnalyzerConfig)
    (images : List ImageMetrics) : List ℚ :=
  temporalGo cfg ⟨none, none, none, none⟩ images

/-- `weighted_sum_available` (sequence_analysis.rs:754): sum of `v*w` and sum of
`w` over the present values. -/
def weighted_sum_available (items : List (Option ℚ × ℚ)) : ℚ × ℚ :=
  items.foldl
    (fun acc vw =>
      match vw.1 with
      | some v => (acc.1 + v * vw.2, acc.2 + vw.2)
      | none => acc)
    (0, 0)

/-- Placeholder image used for out-of-range `getD` indexing; all in-range uses
are guarded by length facts, so it is never observed. -/
def dfltMetrics : ImageMetrics := ⟨0, none, none, none, none, none, none⟩

/-- `SequenceAnalyzer::local_baseline` (sequence_analysis.rs:660): median of up
to 5 preceding frames, falling back to the current value (or 0). -/
def local_baseline (images : List ImageMetrics) (idx : ℕ)
    (f : ImageMetrics → Option ℚ) : ℚ :=
  let start := idx - 5
  let vals := (List.range' start (idx - start)).filterMap fun j => f (images.getD j dfltMetrics)
  if vals.isEmpty then (f (images.getD idx dfltMetrics)).getD 0
  else
    let sorted := vals.insertionSort (· ≤ ·)
    sorted.getD (vals.length / 2) 0

/-- `SequenceAnalyzer::compute_fractional_drop` (sequence_analysis.rs:622). -/
def compute_fractional_drop (images : List ImageMetrics) (idx : ℕ)
    (f : ImageMetrics → Option ℚ) : ℚ :=
  match f (images.getD idx dfltMetrics) with
  | none => 0
  | some current =>
    let baseline := local_baseline images idx f
    if |baseline| < smallEpsilon then 0
    else max ((baseline - current) / baseline) 0

/-- `SequenceAnalyzer::compute_fractional_rise` (sequence_analysis.rs:641). -/
def compute_fractional_rise (images : List ImageMetrics) (idx : ℕ)
    (f : ImageMetrics → Option ℚ) : ℚ :=
  match f (images.getD idx dfltMetrics) with
  | none => 0
  | some current =>
    let baseline := local_baseline images idx f
    if |baseline| < smallEpsilon then 0
    else max ((current - baseline) / baseline) 0

/-- One `j` step of the `is_gradual_change` loop (sequence_analysis.rs:688-701):
contributes 1 when both neighbours are present, the earlier value is positive,
and the relative change rate is below `sudden_change_rate`. -/
def gradualStep (cfg : SequenceAnalyzerConfig) (images : List ImageMetrics)
    (f : ImageMetrics → Option ℚ) (j : ℕ) : ℕ :=
  match f (images.getD (j - 1) dfltMetrics), f (images.getD j dfltMetrics) with
  | some prev, some curr =>
    if 0 < prev then
      if |(curr - prev) / prev| < cfg.sudden_change_rate then 1 else 0
    else 0
  | _, _ => 0

/-- `SequenceAnalyzer::is_gradual_change` (sequence_analysis.rs:676). -/
def is_gradual_change (cfg : SequenceAnalyzerConfig) (images : List ImageMetrics)
    (idx : ℕ) (f : ImageMetrics → Option ℚ) (window : ℕ) : Bool :=
  if idx < window then false
  else
    let consecutive_small :=
      ((List.range' (idx - window + 1) window).map (gradualStep cfg images f)).sum
    window - 1 ≤ consecutive_small

/-- Classification of a single below-0.7 image (body of the loop in
`classify_issues`, sequence_analysis.rs:535-617). The `details` strings are
omitted (see module docstring). -/
def classifyOne (cfg : SequenceAnalyzerConfig) (images : List ImageMetrics)
    (i : ℕ) (r : ImageQualityResult) : ImageQualityResult :=
  if 7/10 ≤ r.quality_score then r
  else
    let star_drop := compute_fractional_drop images i fun m => m.star_count
    let bg_rise := compute_fractional_rise images i fun m => m.background
    let hfr_rise := compute_fractional_rise images i fun m => m.hfr
    let ecc_rise := compute_fractional_rise images i fun m => m.eccentricity
    let is_gradual_hfr := is_gradual_change cfg images i (fun m => m.hfr) 3
    let is_gradual_bg := is_gradual_change cfg images i (fun m => m.background) 3
    let star_stable := star_drop < cfg.star_drop_threshold
    let bg_stable := bg_rise < cfg.bg_rise_threshold
    let ecc_stable := ecc_rise < 15/100
    let category : Option IssueCategory :=
      if cfg.star_drop_threshold < star_drop ∧ cfg.bg_rise_threshold < bg_rise then
        some .likelyClouds
      else if cfg.star_drop_threshold < star_drop ∧ bg_stable then
        some .possibleObstruction
      else if cfg.hfr_rise_threshold < hfr_rise ∧ is_gradual_hfr ∧ ecc_stable then
        some .focusDrift
      else if 15/100 < ecc_rise ∧ star_stable then
        some .trackingError
      else if cfg.hfr_rise_threshold < hfr_rise ∧ cfg.star_drop_threshold < star_drop
          ∧ ¬ecc_stable then
        some .windShake
      else if cfg.bg_rise_threshold < bg_rise ∧ is_gradual_bg ∧ star_stable then
        some .skyBrightening
      else if r.quality_score < 1/2 then
        some .unknownDegradation
      else none
    { r with category := category }

/-- Index-tracking recursion over the results for `classify_issues`. -/
def classifyGo (cfg : SequenceAnalyzerConfig) (images : List ImageMetrics) :
    ℕ → List ImageQualityResult → List ImageQualityResult
  | _, [] => []
  | i, r :: rest => classifyOne cfg images i r :: classifyGo cfg images (i + 1) rest

/-- `SequenceAnalyzer::classify_issues` (sequence_analysis.rs:528): no-op for
fewer than 2 images, else classify each result in index order. -/
def classify_issues (cfg : SequenceAnalyzerConfig)
    (results : List ImageQualityResult) (images : List ImageMetrics) :
    List ImageQualityResult :=
  if images.length < 2 then results
  else classifyGo cfg images 0 results

/-- `best_value` (sequence_analysis.rs:767): `max_by` keeps the last maximum,
`min_by` the first minimum, over the present values. -/
def best_value (images : List ImageMetrics) (f : ImageMetrics → Option ℚ)
    (higher_better : Bool) : Option ℚ :=
  match images.filterMap f with
  | [] => none
  | v :: vs =>
    some (if higher_better then vs.foldl (fun acc x => if acc ≤ x then x else acc) v
          else vs.foldl (fun acc x => if x < acc then x else acc) v)

/-- One result's contribution to the summary (loop body of `build_summary`,
sequence_analysis.rs:719-733). -/
def summaryStep (s : SequenceSummary) (r : ImageQualityResult) : SequenceSummary :=
  let s :=
    if 90/100 ≤ r.quality_score then { s with excellent_count := s.excellent_count + 1 }
    else if 70/100 ≤ r.quality_score then { s with good_count := s.good_count + 1 }
    else if 50/100 ≤ r.quality_score then { s with fair_count := s.fair_count + 1 }
    else if 30/100 ≤ r.quality_score then { s with poor_count := s.poor_count + 1 }
    else { s with bad_count := s.bad_count + 1 }
  match r.category with
  | some .likelyClouds => { s with cloud_events_detected := s.cloud_events_detected + 1 }
  | some .focusDrift => { s with focus_drift_detected := true }
  | some .trackingError => { s with tracking_issues_detected := true }
  | _ => s

/-- `SequenceAnalyzer::build_summary` (sequence_analysis.rs:707). -/
def build_summary (results : List ImageQualityResult) : SequenceSummary :=
  results.foldl summaryStep ⟨0, 0, 0, 0, 0, 0, false, false⟩

/-- The perfect result a below-minimum-length sequence assigns each image
(`score_sequence`'s short-circuit, sequence_analysis.rs:253-268). -/
def perfect_result (img : ImageMetrics) : ImageQualityResult :=
  { image_id := img.image_id, quality_score := 1, temporal_anomaly_score := 0
    category := none
    normalized_metrics := ⟨some 1, some 1, some 1, some 1, some 1⟩ }

/-- The pre-classification per-image results of `score_sequence`'s main path
(the `results` vector built in sequence_analysis.rs:299-362): normalize the
five metrics, compute temporal scores, and combine into composite scores. -/
def score_results (cfg : SequenceAnalyzerConfig) (images : List ImageMetrics) :
    List ImageQualityResult :=
  let norm_stars := normalize_metric_higher_better (images.map fun i => i.star_count)
  let norm_hfr := normalize_metric_lower_better (images.map fun i => i.hfr)
  let norm_ecc := normalize_metric_lower_better (images.map fun i => i.eccentricity)
  let norm_snr := normalize_metric_higher_better (images.map fun i => i.snr)
  let norm_bg := normalize_metric_lower_better (images.map fun i => i.background)
  let temporal_scores := compute_temporal_scores cfg images
  let w := cfg.quality_weights
  (List.range images.length).map fun i =>
    let ns := norm_stars.getD i none
    let nh := norm_hfr.getD i none
    let ne := norm_ecc.getD i none
    let nsn := norm_snr.getD i none
    let nb := norm_bg.getD i none
    let sw := weighted_sum_available
      [(ns, w.star_count), (nh, w.hfr), (ne, w.eccentricity), (nsn, w.snr),
       (nb, w.background)]
    let quality_score := if 0 < sw.2 then sw.1 / sw.2 else 1
    let temporal := temporal_scores.getD i 0
    let penalty := 1 - min temporal (1/2)
    { image_id := (images.getD i dfltMetrics).image_id
      quality_score := ratClamp (quality_score * penalty) 0 1
      temporal_anomaly_score := temporal
      category := none
      normalized_metrics := ⟨ns, nh, ne, nsn, nb⟩ }

/-- `SequenceAnalyzer::score_sequence` (sequence_analysis.rs:239). -/
def score_sequence (cfg : SequenceAnalyzerConfig) (images : List ImageMetrics)
    (target_id : ℤ) (target_name filter_name : String) : ScoredSequence :=
  if images.length < cfg.min_sequence_length then
    { target_id := target_id, target_name := target_name, filter_name := filter_name
      session_start := images.head?.bind fun i => i.timestamp
      session_end := images.getLast?.bind fun i => i.timestamp
      image_count := images.length
      reference_values := ⟨none, none, none, none, none⟩
      images := images.map perfect_result
      summary := ⟨images.length, 0, 0, 0, 0, 0, false, false⟩ }
  else
    { target_id := target_id, target_name := target_name, filter_name := filter_name
      session_start := images.head?.bind fun i => i.timestamp
      session_end := images.getLast?.bind fun i => i.timestamp
      image_count := images.length
      reference_values :=
        { best_star_count := best_value images (fun i => i.star_count) true
          best_hfr := best_value images (fun i => i.hfr) false
          best_eccentricity := best_value images (fun i => i.eccentricity) false
          best_snr := best_value images (fun i => i.snr) true
          best_background := best_value images (fun i => i.background) false }
      images := classify_issues cfg (score_results cfg images) images
      summary := build_summary (classify_issues cfg (score_results cfg images) images) }

/-- Sort key of `split_into_sequences` (sequence_analysis.rs:213):
`img.timestamp.unwrap_or(0)`. -/
def tsKey (img : ImageMetrics) : ℤ := img.timestamp.getD 0

/-- The timestamp order used by the stable `sort_by_key`. -/
def tsLe (a b : ImageMetrics) : Prop := tsKey a ≤ tsKey b

instance : DecidableRel tsLe := fun a b => inferInstanceAs (Decidable (tsKey a ≤ tsKey b))

instance : IsTotal ImageMetrics tsLe := ⟨fun x y => Int.le_total (tsKey x) (tsKey y)⟩

instance : IsTrans ImageMetrics tsLe := ⟨fun _ _ _ => Int.le_trans⟩

/-- Loop of `split_into_sequences` (sequence_analysis.rs:219-233): `cur` is the
current (nonempty) session; a gap larger than `gapSeconds` closes it. -/
def splitGo (gapSeconds : ℤ) (cur : List ImageMetrics) :
    List ImageMetrics → List (List ImageMetrics)
  | [] => [cur]
  | img :: rest =>
    let prev_ts := (cur.getLast?.bind fun p => p.timestamp).getD 0
    let curr_ts := img.timestamp.getD 0
    if gapSeconds < curr_ts - prev_ts then cur :: splitGo gapSeconds [img] rest
    else splitGo gapSeconds (cur ++ [img]) rest

/-- `SequenceAnalyzer::split_into_sequences` (sequence_analysis.rs:207). -/
def split_into_sequences (cfg : SequenceAnalyzerConfig)
    (images : List ImageMetrics) : List (List ImageMetrics) :=
  match images.insertionSort tsLe with
  | [] => []
  | first :: rest => splitGo ((cfg.session_gap_minutes : ℤ) * 60) [first] rest

/-- `SequenceAnalyzer::analyze` (sequence_analysis.rs:191). -/
def analyze (cfg : SequenceAnalyzerConfig) (images : List ImageMetrics)
    (target_id : ℤ) (target_name filter_name : String) : List ScoredSequence :=
  (split_into_sequences cfg images).map fun seq =>
    score_sequence cfg seq target_id target_name filter_name

/-! ## Catalog reset operations (src/db.rs) -/

/-- One row of the `acquiredimage` table (columns used by the reset queries;
`acquireddate` and `rejectreason` are nullable). -/
structure AcqRow where
  id : ℤ
  project_id : ℤ
  target_id : ℤ
  acquireddate : Option ℤ
  grading_status : ℤ
  rejectreason : Option String
deriving Repr, DecidableEq

/-- The tables consulted by the reset queries: `project(Id, name)`,
`target(Id, name)` and `acquiredimage`. -/
structure CatalogDb where
  projects : List (ℤ × String)
  targets : List (ℤ × String)
  images : List AcqRow
deriving Repr, DecidableEq

/-- ASCII-lowered character list of a string (SQLite `LIKE` folds ASCII case). -/
def lowerChars (s : String) : List Char := s.toList.map Char.toLower

/-- Does `pat` match the front of the text? -/
def frontMatch : List Char → List Char → Bool
  | [], _ => true
  | _ :: _, [] => false
  | p :: ps, c :: cs => p == c && frontMatch ps cs

/-- Does `pat` occur anywhere in the text? -/
def subMatch (pat : List Char) : List Char → Bool
  | [] => frontMatch pat []
  | c :: cs => frontMatch pat (c :: cs) || subMatch pat cs

/-- SQLite `text LIKE '%pat%'` for a pattern without wildcards:
case-insensitive (ASCII) substring containment. -/
def likeContains (pat text : String) : Bool :=
  subMatch (lowerChars pat) (lowerChars text)

/-- `acquireddate >= ?` under SQL three-valued logic: a NULL date never
selects the row. -/
def dateSince (cutoff : ℤ) (r : AcqRow) : Bool :=
  match r.acquireddate with
  | some d => cutoff ≤ d
  | none => false

/-- `projectId IN (SELECT Id FROM project WHERE name LIKE '%p%')` (db.rs:362). -/
def projectNameMatches (db : CatalogDb) (pf : Option String) (r : AcqRow) : Bool :=
  match pf with
  | none => true
  | some p => db.projects.any fun pr => pr.1 == r.project_id && likeContains p pr.2

/-- `targetId IN (SELECT Id FROM target WHERE name LIKE '%t%')` (db.rs:367). -/
def targetNameMatches (db : CatalogDb) (tf : Option String) (r : AcqRow) : Bool :=
  match tf with
  | none => true
  | some t => db.targets.any fun tg => tg.1 == r.target_id && likeContains t tg.2

/-- `(gradingStatus != 2 OR rejectreason NOT LIKE '%Manual%')` (db.rs:373)
under SQL three-valued logic: for a rejected row with NULL reject reason the
disjunction is NULL, so the row is not selected. -/
def nonManualCond (r : AcqRow) : Bool :=
  if r.grading_status = 2 then
    match r.rejectreason with
    | none => false
    | some reason => !likeContains "Manual" reason
  else true

/-- The WHERE clause of the `reset_grading_status` UPDATE (db.rs:346-374). -/
def resetRowSelected (mode : String) (cutoff : ℤ) (pf tf : Option String)
    (db : CatalogDb) (r : AcqRow) : Bool :=
  dateSince cutoff r && projectNameMatches db pf r && targetNameMatches db tf r
    && (if mode == "automatic" then nonManualCond r else true)

/-- `Database::reset_grading_status` (db.rs:346): the updated table together
with the row count SQLite reports for the UPDATE (every row matched by the
WHERE clause). -/
def reset_grading_status (mode : String) (cutoff : ℤ) (pf tf : Option String)
    (db : CatalogDb) : CatalogDb × ℕ :=
  let selected := resetRowSelected mode cutoff pf tf db
  ({ db with images := db.images.map fun r =>
      if selected r then { r with grading_status := 0, rejectreason := none } else r },
   (db.images.filter selected).length)

/-- `Database::count_images_to_reset` (db.rs:382): same WHERE clause with the
extra conjunct `gradingStatus != 0` (db.rs:411). -/
def count_images_to_reset (mode : String) (cutoff : ℤ) (pf tf : Option String)
    (db : CatalogDb) : ℕ :=
  (db.images.filter fun r =>
    resetRowSelected mode cutoff pf tf db r && !(r.grading_status = 0 : Bool)).length

/-! ## File-check cache state machine (src/server/state.rs) -/

/-- `RefreshStage` (state.rs:70). -/
inductive RefreshStage where
  | idle
  | initializingDirectoryTree
  | loadingProjects
  | processingProjects
  | processingTargets
  | updatingCache
  | completed
deriving Repr, DecidableEq

/-- `RefreshProgress` (state.rs:53); `Instant`s are modelled as natural-number
clock readings. -/
structure RefreshProgress where
  stage : RefreshStage
  start_time : Option ℕ
  directories_total : ℕ
  directories_processed : ℕ
  current_directory_name : Option String
  files_scanned : ℕ
  projects_total : ℕ
  projects_processed : ℕ
  current_project_name : Option String
  targets_total : ℕ
  targets_processed : ℕ
  files_found : ℕ
  files_missing : ℕ
deriving Repr, DecidableEq

/-- `RefreshProgress::default()` (state.rs:80). -/
def RefreshProgress.dflt : RefreshProgress :=
  ⟨.idle, none, 0, 0, none, 0, 0, 0, none, 0, 0, 0, 0⟩

/-- `RefreshProgress::start_refresh` (state.rs:101), at clock reading `now`. -/
def RefreshProgress.start_refresh (now : ℕ) : RefreshProgress :=
  { RefreshProgress.dflt with stage := .initializingDirectoryTree, start_time := some now }

/-- `RefreshStatus` (state.rs:12). -/
inductive RefreshStatus where
  | notNeeded
  | inProgressServeStale
  | inProgressWait
  | needsRefresh
deriving Repr, DecidableEq

/-- `FileCheckCache` (state.rs:42); the two `HashMap`s are association lists
(only their contents/emptiness matter here), `last_updated` is a clock
reading. -/
structure FileCheckCache where
  projects_with_files : List (ℤ × Bool)
  targets_with_files : List (ℤ × Bool)
  last_updated : ℕ
  cache_duration : ℕ
  refresh_in_progress : Bool
  has_initial_data : Bool
  refresh_progress : RefreshProgress
deriving Repr, DecidableEq

/-- `FileCheckCache::new` (state.rs:211) at clock reading `now`; the TTL is 60
seconds. -/
def FileCheckCache.new (now : ℕ) : FileCheckCache :=
  ⟨[], [], now, 60, false, false, RefreshProgress.dflt⟩

/-- `FileCheckCache::is_expired` (state.rs:223): `last_updated.elapsed() >
cache_duration` at clock reading `now`. -/
def FileCheckCache.is_expired (c : FileCheckCache) (now : ℕ) : Bool :=
  c.cache_duration < now - c.last_updated

/-- `FileCheckCache::mark_refresh_started` (state.rs:236). -/
def FileCheckCache.mark_refresh_started (c : FileCheckCache) (now : ℕ) : FileCheckCache :=
  { c with refresh_in_progress := true
           refresh_progress := RefreshProgress.start_refresh now }

/-- `FileCheckCache::mark_refresh_completed` (state.rs:241). -/
def FileCheckCache.mark_refresh_completed (c : FileCheckCache) (now : ℕ) : FileCheckCache :=
  { c with refresh_in_progress := false, has_initial_data := true, last_updated := now
           refresh_progress := { c.refresh_progress with
                                   stage := .completed
                                   current_project_name := none
                                   current_directory_name := none } }

/-- `FileCheckCache::get_refresh_status` (state.rs:253). -/
def FileCheckCache.get_refresh_status (c : FileCheckCache) (now : ℕ) : RefreshStatus :=
  if c.refresh_in_progress then
    if c.has_initial_data then .inProgressServeStale else .inProgressWait
  else if c.is_expired now
      || (!c.has_initial_data && c.projects_with_files.isEmpty
          && c.targets_with_files.isEmpty) then
    .needsRefresh
  else .notNeeded

/-- "The cache is empty": no completed refresh has published any data — both
maps empty and `has_initial_data` false. This is exactly the cache produced by
`FileCheckCache::new` and by `clear`, the only states the refresh coordinator
ever leaves without data. -/
def FileCheckCache.cacheEmpty (c : FileCheckCache) : Prop :=
  c.has_initial_data = false ∧ c.projects_with_files = [] ∧ c.targets_with_files = []

instance (c : FileCheckCache) : Decidable c.cacheEmpty :=
  inferInstanceAs (Decidable (_ ∧ _ ∧ _))

/-- `AppState::spawn_background_refresh` (state.rs:622): result state, returned
status, and whether a new singleton refresh task was spawned. The spawned task
has not yet run (the surrounding claims assume no intervening state change). -/
def spawn_background_refresh (c : FileCheckCache) (now : ℕ) :
    FileCheckCache × RefreshStatus × Bool :=
  if c.refresh_in_progress then
    (c, if c.has_initial_data then .inProgressServeStale else .inProgressWait, false)
  else
    let c2 := c.mark_refresh_started now
    (c2, if c2.has_initial_data then .inProgressServeStale else .inProgressWait, true)

/-- `AppState::ensure_cache_available` (state.rs:420). -/
def ensure_cache_available (c : FileCheckCache) (now : ℕ) :
    FileCheckCache × RefreshStatus × Bool :=
  match c.get_refresh_status now with
  | .needsRefresh => spawn_background_refresh c now
  | status => (c, status, false)

/-! ## Path resolver (src/server/handlers.rs, `find_fits_file`) -/

/-- Error kinds of `AppError` relevant to `find_fits_file`. -/
inductive AppError where
  | notFound
  | badRequest
  | internalError
deriving Repr, DecidableEq

/-- `find_fits_file` (handlers.rs:1039), parameterized over its environment:
* `fsHas` — the filesystem snapshot (`Path::exists`);
* `acquired_date` and `dateOk` — the image's optional timestamp and whether
  `chrono::DateTime::from_timestamp` accepts it;
* `possible_paths` — the candidate paths accumulated from
  `get_possible_paths` over all image roots (that helper lives in the
  `commands` module, outside the embedded sources; every property proved here
  holds for an arbitrary candidate list);
* `tree` — the directory-tree access: `Except.error` when
  `get_directory_tree` fails, otherwise `find_file_first filename`. -/
def find_fits_file (fsHas : String → Bool) (acquired_date : Option ℤ)
    (dateOk : ℤ → Bool) (possible_paths : List String)
    (tree : Except Unit (Option String)) : Except AppError String :=
  match acquired_date with
  | none => .error .badRequest
  | some d =>
    if dateOk d then
      match possible_paths.find? fsHas with
      | some path => .ok path
      | none =>
        match tree with
        | .error _ => .error .internalError
        | .ok none => .error .notFound
        | .ok (some first_path) =>
          if fsHas first_path then .ok first_path else .error .notFound
    else .error .badRequest

/-! ## Concrete fixtures used by counterexamples and witnesses -/

/-- Replace a missing timestamp by `some 0` (the value the splitter
substitutes for it). -/
def fixTs (img : ImageMetrics) : ImageMetrics :=
  { img with timestamp := some (tsKey img) }

/-- Placeholder result (for `getD`/`headD` on concrete computations). -/
def dfltResult : ImageQualityResult :=
  ⟨0, 0, 0, none, ⟨none, none, none, none, none⟩⟩

/-- Placeholder sequence (for `headD` on concrete computations). -/
def dfltSeq : ScoredSequence :=
  ⟨0, "", "", none, none, 0, ⟨none, none, none, none, none⟩, [], ⟨0, 0, 0, 0, 0, 0, false, false⟩⟩

/-- A two-image session (below the default `min_sequence_length` of 3). -/
def demoShort : List ImageMetrics :=
  [⟨0, some 0, some 300, some (5/2), none, none, none⟩,
   ⟨1, some 300, some 300, some (5/2), none, none, none⟩]

/-- A one-image session whose star count is present. -/
def c3img : ImageMetrics := ⟨7, some 0, some 5, none, none, none, none⟩

/-- Four-image session: stable for three frames, then frame 3 loses 90% of its
stars while the background rises by exactly 10%. -/
def c4imgs : List ImageMetrics :=
  [⟨0, some 0, some 1000, none, none, none, some 1000⟩,
   ⟨1, some 300, some 1000, none, none, none, some 1000⟩,
   ⟨2, some 600, some 1000, none, none, none, some 1000⟩,
   ⟨3, some 900, some 100, none, none, none, some 1100⟩]

/-- Like `c4imgs` but with a constant background: frame 3 is a pure
obstruction pattern (star drop, stable background). -/
def c4bimgs : List ImageMetrics :=
  [⟨0, some 0, some 1000, none, none, none, some 1000⟩,
   ⟨1, some 300, some 1000, none, none, none, some 1000⟩,
   ⟨2, some 600, some 1000, none, none, none, some 1000⟩,
   ⟨3, some 900, some 100, none, none, none, some 1000⟩]

/-- A six-image session with mixed metric availability and one degraded frame. -/
def demoSession : List ImageMetrics :=
  [⟨0, some 0, some 320, some (24/10), none, some 46, some 1200⟩,
   ⟨1, some 300, some 335, some (23/10), none, some 45, some 1210⟩,
   ⟨2, some 600, some 310, some (25/10), none, none, some 1190⟩,
   ⟨3, some 900, some 345, some (235/100), none, some 47, some 1205⟩,
   ⟨4, some 1200, some 90, some (39/10), none, some 11, some 1690⟩,
   ⟨5, some 1500, some 330, some (245/100), none, some 44, some 1200⟩]

/-- A catalog with a single pending row acquired after the cutoff. -/
def dbC2 : CatalogDb := ⟨[], [], [⟨1, 1, 1, some 10, 0, none⟩]⟩

/-- A catalog exercising filters and the automatic mode: two projects, two
targets, and rows in every grading status including a manually-rejected one
and a rejected row without a reject reason. -/
def dbDemo : CatalogDb :=
  ⟨[(1, "Andromeda"), (2, "Orion")], [(10, "M31"), (20, "M42")],
   [⟨1, 1, 10, some 100, 1, none⟩,
    ⟨2, 1, 10, some 100, 2, some "Poor HFR"⟩,
    ⟨3, 1, 10, some 100, 2, some "Manual rejection"⟩,
    ⟨4, 2, 20, some 100, 2, none⟩,
    ⟨5, 2, 20, some 5, 1, none⟩,
    ⟨6, 1, 10, none, 1, none⟩,
    ⟨7, 1, 10, some 100, 0, none⟩]⟩

/-- A fresh cache state observed mid-refresh with prior data. -/
def demoCache : FileCheckCache :=
  { FileCheckCache.new 0 with has_initial_data := true, projects_with_files := [(1, true)] }

/-! # Theorems settling the claims -/

/-- **C6.** `FileCheckCache::get_refresh_status` characterization: the two
in-progress statuses are decided by `refresh_in_progress` and
`has_initial_data`; with no refresh running, `NeedsRefresh` holds exactly when
the cache is empty (never populated) or expired, and `NotNeeded` otherwise. -/
theorem C6_get_refresh_status_cases (c : FileCheckCache) (now : ℕ) :
    (c.get_refresh_status now = .inProgressServeStale ↔
      c.refresh_in_progress = true ∧ c.has_initial_data = true) ∧
    (c.get_refresh_status now = .inProgressWait ↔
      c.refresh_in_progress = true ∧ c.has_initial_data = false) ∧
    (c.refresh_in_progress = false →
      ((c.get_refresh_status now = .needsRefresh ↔
        (c.cacheEmpty ∨ c.is_expired now = true)) ∧
       (c.get_refresh_status now = .notNeeded ↔
        (¬c.cacheEmpty ∧ c.is_expired now = false)))) := by
  obtain ⟨p, t, lu, cd, rip, hid, rp⟩ := c
  cases rip <;> cases hid <;>
    simp only [FileCheckCache.get_refresh_status, FileCheckCache.cacheEmpty,
      Bool.not_true, Bool.not_false, Bool.true_and, Bool.false_and, Bool.and_self,
      Bool.or_false, Bool.or_true, if_true, if_false] <;>
    cases hexp : FileCheckCache.is_expired ⟨p, t, lu, cd, _, _, rp⟩ now <;>
    cases p <;> cases t <;> simp_all [List.isEmpty]

/-- **C6 witness.** The characterization applied to a concrete mid-refresh
state with prior data. -/
theorem C6_get_refresh_status_cases_witness :
    ({ demoCache with refresh_in_progress := true }.get_refresh_status 0
      = .inProgressServeStale ↔
      ({ demoCache with refresh_in_progress := true }.refresh_in_progress = true ∧
       { demoCache with refresh_in_progress := true }.has_initial_data = true)) :=
  (C6_get_refresh_status_cases { demoCache with refresh_in_progress := true } 0).1

/-- **C9.** `ensure_cache_available` is idempotent: with no intervening
external state change, a second call leaves the cache state unchanged, returns
the same status, and does not spawn another background refresh. -/
theorem C9_ensure_cache_available_idempotent (c : FileCheckCache) (now : ℕ) :
    (ensure_cache_available (ensure_cache_available c now).1 now).1
        = (ensure_cache_available c now).1 ∧
    (ensure_cache_available (ensure_cache_available c now).1 now).2.1
        = (ensure_cache_available c now).2.1 ∧
    (ensure_cache_available (ensure_cache_available c now).1 now).2.2 = false := by
  cases hst : c.get_refresh_status now with
  | needsRefresh =>
    have hrip : c.refresh_in_progress = false := by
      by_contra hb
      rw [Bool.not_eq_false] at hb
      unfold FileCheckCache.get_refresh_status at hst
      cases hhid : c.has_initial_data <;> simp [hb, hhid] at hst
    have e1 : ensure_cache_available c now =
        (c.mark_refresh_started now,
         if c.has_initial_data then .inProgressServeStale else .inProgressWait, true) := by
      simp only [ensure_cache_available, hst, spawn_background_refresh, hrip,
        Bool.false_eq_true, if_false, FileCheckCache.mark_refresh_started]
    have hst2 : (c.mark_refresh_started now).get_refresh_status now
        = if c.has_initial_data then .inProgressServeStale else .inProgressWait := by
      simp [FileCheckCache.get_refresh_status, FileCheckCache.mark_refresh_started]
    have e2 : ensure_cache_available (c.mark_refresh_started now) now =
        (c.mark_refresh_started now,
         if c.has_initial_data then .inProgressServeStale else .inProgressWait, false) := by
      cases hhid : c.has_initial_data <;>
        simp only [ensure_cache_available, hst2, hhid, if_true, if_false,
          Bool.false_eq_true, Bool.true_eq_false]
    simp [e1, e2]
  | notNeeded =>
    have e1 : ensure_cache_available c now = (c, .notNeeded, false) := by
      simp only [ensure_cache_available, hst]
    simp [e1]
  | inProgressServeStale =>
    have e1 : ensure_cache_available c now = (c, .inProgressServeStale, false) := by
      simp only [ensure_cache_available, hst]
    simp [e1]
  | inProgressWait =>
    have e1 : ensure_cache_available c now = (c, .inProgressWait, false) := by
      simp only [ensure_cache_available, hst]
    simp [e1]

/-- **C8.** Whenever `find_fits_file` succeeds with a path, that path exists in
the filesystem snapshot: both success exits are guarded by an existence
check. -/
theorem C8_find_fits_file_exists (fsHas : String → Bool) (acquired_date : Option ℤ)
    (dateOk : ℤ → Bool) (possible_paths : List String)
    (tree : Except Unit (Option String)) (p : String)
    (h : find_fits_file fsHas acquired_date dateOk possible_paths tree = .ok p) :
    fsHas p = true := by
  unfold find_fits_file at h
  split at h
  · simp at h
  · split at h
    · split at h
      · rename_i path hfind
        cases h
        exact List.find?_some hfind
      · split at h
        · simp at h
        · simp at h
        · rename_i fp
          split at h
          · rename_i hfp
            cases h
            exact hfp
          · simp at h
    · simp at h

/-- **C8 witness.** A concrete resolution through the directory-tree fallback:
the returned path exists in the snapshot. -/
theorem C8_find_fits_file_exists_witness :
    (fun s => s == "/imgs/2024-01-15/M31/light_001.fits") "/imgs/2024-01-15/M31/light_001.fits"
      = true :=
  C8_find_fits_file_exists (fun s => s == "/imgs/2024-01-15/M31/light_001.fits")
    (some 1705363200) (fun _ => true) ["/imgs/light_001.fits"]
    (.ok (some "/imgs/2024-01-15/M31/light_001.fits"))
    "/imgs/2024-01-15/M31/light_001.fits" (by rfl)

/-- **C2 counterexample.** One pending row acquired after the cutoff: the
UPDATE of `reset_grading_status` matches (and reports) it, while
`count_images_to_reset` excludes it via its extra `gradingStatus != 0`
conjunct — the two populations differ. -/
theorem C2_reset_count_counterexample :
    (reset_grading_status "full" 0 none none dbC2).2 = 1 ∧
    count_images_to_reset "full" 0 none none dbC2 = 0 := by decide

/-- `dateSince` as a proposition. -/
theorem dateSince_eq_true_iff (cutoff : ℤ) (r : AcqRow) :
    dateSince cutoff r = true ↔ ∃ d, r.acquireddate = some d ∧ cutoff ≤ d := by
  cases h : r.acquireddate <;> simp [dateSince, h]

/-- `nonManualCond` as a proposition. -/
theorem nonManualCond_eq_true_iff (r : AcqRow) :
    nonManualCond r = true ↔
      (r.grading_status ≠ 2
        ∨ ∃ reason, r.rejectreason = some reason
            ∧ likeContains "Manual" reason = false) := by
  by_cases hgs : r.grading_status = 2
  · cases hrr : r.rejectreason <;> simp [nonManualCond, hgs, hrr]
  · simp [nonManualCond, hgs]

/-- **C2 (amended).** `count_images_to_reset` returns the number of
*non-pending* rows among those the UPDATE of `reset_grading_status` affects
(the UPDATE itself also matches pending rows, so its report can exceed the
count); in `full` mode a row is matched exactly when its (non-NULL) acquired
date reaches the cutoff and it passes both name filters, and in `automatic`
mode exactly when additionally it is not rejected, or is rejected with a
present reject reason not containing the token `Manual`. -/
theorem C2_reset_count_amended (mode : String) (cutoff : ℤ) (pf tf : Option String)
    (db : CatalogDb) :
    (count_images_to_reset mode cutoff pf tf db =
      ((db.images.filter (resetRowSelected mode cutoff pf tf db)).filter
        (fun r => !(r.grading_status = 0 : Bool))).length) ∧
    ((reset_grading_status mode cutoff pf tf db).2 =
      (db.images.filter (resetRowSelected mode cutoff pf tf db)).length) ∧
    (∀ r : AcqRow, resetRowSelected "full" cutoff pf tf db r = true ↔
      ((∃ d, r.acquireddate = some d ∧ cutoff ≤ d)
        ∧ projectNameMatches db pf r = true ∧ targetNameMatches db tf r = true)) ∧
    (∀ r : AcqRow, resetRowSelected "automatic" cutoff pf tf db r = true ↔
      ((∃ d, r.acquireddate = some d ∧ cutoff ≤ d)
        ∧ projectNameMatches db pf r = true ∧ targetNameMatches db tf r = true
        ∧ (r.grading_status ≠ 2
           ∨ ∃ reason, r.rejectreason = some reason
               ∧ likeContains "Manual" reason = false))) := by
  have hfull : (("full" == "automatic") : Bool) = false := rfl
  have hauto : (("automatic" == "automatic") : Bool) = true := rfl
  refine ⟨?_, rfl, ?_, ?_⟩
  · show (db.images.filter fun r =>
        resetRowSelected mode cutoff pf tf db r && !(r.grading_status = 0 : Bool)).length = _
    rw [List.filter_filter]
    congr 1
    apply List.filter_congr
    intro a _
    exact Bool.and_comm _ _
  · intro r
    simp [resetRowSelected, hfull, Bool.and_eq_true, dateSince_eq_true_iff, and_assoc]
  · intro r
    simp [resetRowSelected, hauto, Bool.and_eq_true, dateSince_eq_true_iff,
      nonManualCond_eq_true_iff, and_assoc]

/-- **C2 witness.** The amended characterization applied to the demo catalog:
in automatic mode the count equals the non-pending part of the affected
population. -/
theorem C2_reset_count_amended_witness :
    count_images_to_reset "automatic" 50 (some "andro") none dbDemo =
      ((dbDemo.images.filter (resetRowSelected "automatic" 50 (some "andro") none dbDemo)).filter
        (fun r => !(r.grading_status = 0 : Bool))).length :=
  (C2_reset_count_amended "automatic" 50 (some "andro") none dbDemo).1

/-- In a list whose elements all equal `v`, every in-range `getD` is `v`. -/
theorem getD_all_eq {l : List ℚ} {v : ℚ} (h : ∀ x ∈ l, x = v) :
    ∀ {i : ℕ}, i < l.length → l.getD i 0 = v := by
  induction l with
  | nil => intro i hi; simp at hi
  | cons a t ih =>
    intro i hi
    cases i with
    | zero => simpa using h a (by simp)
    | succ n =>
      exact ih (fun x hx => h x (by simp [hx])) (by simpa using hi)

/-- If all (at least one) values are the same, both percentile bounds are that
value. -/
theorem percentile_bounds_const (l : List ℚ) (v : ℚ) (hne : l ≠ [])
    (h : ∀ x ∈ l, x = v) : percentile_bounds l = (v, v) := by
  unfold percentile_bounds
  rw [if_neg (by simpa [List.isEmpty_iff] using hne)]
  have hlen : (l.insertionSort (· ≤ ·)).length = l.length :=
    (List.perm_insertionSort _ l).length_eq
  have hmem : ∀ x ∈ l.insertionSort (· ≤ ·), x = v :=
    fun x hx => h x ((List.mem_insertionSort _).1 hx)
  have hpos : 0 < (l.insertionSort (· ≤ ·)).length := by
    rw [hlen]; exact List.length_pos.2 hne
  have hsub : ∀ m : ℕ, min m ((l.insertionSort (· ≤ ·)).length - 1)
      < (l.insertionSort (· ≤ ·)).length := by
    intro m
    exact Nat.lt_of_le_of_lt (Nat.min_le_right _ _) (Nat.sub_lt hpos Nat.one_pos)
  simp only [Prod.mk.injEq]
  exact ⟨getD_all_eq hmem (hsub _), getD_all_eq hmem (hsub _)⟩

/-- Each branch of the higher-better normalizer is a position-preserving map
sending missing to missing. -/
theorem normalize_hb_eq_map (values : List (Option ℚ)) :
    ∃ g, normalize_metric_higher_better values = values.map g ∧ g none = none := by
  simp only [normalize_metric_higher_better]
  split
  · exact ⟨_, rfl, rfl⟩
  · split
    · exact ⟨_, rfl, rfl⟩
    · exact ⟨_, rfl, rfl⟩

/-- Each branch of the lower-better normalizer is a position-preserving map
sending missing to missing. -/
theorem normalize_lb_eq_map (values : List (Option ℚ)) :
    ∃ g, normalize_metric_lower_better values = values.map g ∧ g none = none := by
  simp only [normalize_metric_lower_better]
  split
  · exact ⟨_, rfl, rfl⟩
  · split
    · exact ⟨_, rfl, rfl⟩
    · exact ⟨_, rfl, rfl⟩

/-- `getD` through a none-preserving map keeps missing entries missing. -/
theorem getD_map_none {g : Option ℚ → Option ℚ} (hg : g none = none)
    (values : List (Option ℚ)) :
    ∀ i : ℕ, values.getD i none = none → (values.map g).getD i none = none := by
  induction values with
  | nil => intro i _; simp
  | cons a t ih =>
    intro i hi
    cases i with
    | zero => simp only [List.getD_cons_zero] at hi; simp [hi, hg]
    | succ n =>
      simp only [List.getD_cons_succ] at hi
      simpa using ih n hi

set_option maxRecDepth 8000

/-- **C7 counterexample.** Two distinct non-missing values closer together
than `f64::EPSILON`: the code's degenerate branch fires and maps both to 1,
while the claim's linear clamp formula would map the smaller one
(`(0 − p5)/(p95 − p5)` with `p5 = 0`, `p95 = 2⁻⁶⁰`) to 0. -/
theorem C7_normalize_counterexample :
    normalize_metric_higher_better [some 0, some (1/2^60)] = [some 1, some 1]
    ∧ percentile_bounds [0, 1/2^60] = (0, 1/2^60)
    ∧ ¬((0 : ℚ) = 1/2^60)
    ∧ ratClamp ((0 - 0) / ((1/2^60 : ℚ) - 0)) 0 1 = 0 := by decide

/-- **C7 (amended).** Metric normalization: whenever
`|p95 − p5| < f64::EPSILON` (in particular — second conjunct — whenever all
non-missing values are identical), every non-missing value maps to exactly
1.0; missing inputs stay missing; and when `|p95 − p5| ≥ f64::EPSILON` each
non-missing value maps to the linear clamp into [0, 1] of
`(v − p5)/(p95 − p5)` (higher-better) or `(p95 − v)/(p95 − p5)`
(lower-better). -/
theorem C7_normalize_amended (values : List (Option ℚ)) :
    (values.filterMap id ≠ [] →
      |(percentile_bounds (values.filterMap id)).2
        - (percentile_bounds (values.filterMap id)).1| < f64Epsilon →
      normalize_metric_higher_better values = values.map (Option.map fun _ => 1)
      ∧ normalize_metric_lower_better values = values.map (Option.map fun _ => 1)) ∧
    (∀ v : ℚ, values.filterMap id ≠ [] → (∀ x ∈ values.filterMap id, x = v) →
      |(percentile_bounds (values.filterMap id)).2
        - (percentile_bounds (values.filterMap id)).1| < f64Epsilon) ∧
    (∀ i : ℕ, values.getD i none = none →
      (normalize_metric_higher_better values).getD i none = none
      ∧ (normalize_metric_lower_better values).getD i none = none) ∧
    (f64Epsilon ≤ |(percentile_bounds (values.filterMap id)).2
        - (percentile_bounds (values.filterMap id)).1| →
      normalize_metric_higher_better values
        = values.map (Option.map fun val =>
            ratClamp ((val - (percentile_bounds (values.filterMap id)).1)
              / ((percentile_bounds (values.filterMap id)).2
                - (percentile_bounds (values.filterMap id)).1)) 0 1)
      ∧ normalize_metric_lower_better values
        = values.map (Option.map fun val =>
            ratClamp (((percentile_bounds (values.filterMap id)).2 - val)
              / ((percentile_bounds (values.filterMap id)).2
                - (percentile_bounds (values.filterMap id)).1)) 0 1)) := by
  refine ⟨?_, ?_, ?_, ?_⟩
  · intro hne hcond
    have hni : ¬(values.filterMap id).isEmpty = true := by
      simpa [List.isEmpty_iff] using hne
    constructor
    · unfold normalize_metric_higher_better
      rw [if_neg hni, if_pos hcond]
    · unfold normalize_metric_lower_better
      rw [if_neg hni, if_pos hcond]
  · intro v hne hall
    have hpb := percentile_bounds_const _ v hne hall
    rw [hpb]
    simp only [sub_self, abs_zero]
    decide
  · intro i hi
    obtain ⟨g, hgeq, hgnone⟩ := normalize_hb_eq_map values
    obtain ⟨g2, hgeq2, hgnone2⟩ := normalize_lb_eq_map values
    rw [hgeq, hgeq2]
    exact ⟨getD_map_none hgnone values i hi, getD_map_none hgnone2 values i hi⟩
  · intro heps
    have hne : ¬(values.filterMap id).isEmpty = true := by
      intro hemp
      rw [List.isEmpty_iff] at hemp
      rw [hemp] at heps
      have : percentile_bounds ([] : List ℚ) = (0, 0) := by decide
      rw [this] at heps
      simp only [sub_zero, abs_zero] at heps
      exact absurd heps (by decide)
    have hcond : ¬(|(percentile_bounds (values.filterMap id)).2
        - (percentile_bounds (values.filterMap id)).1| < f64Epsilon) := not_lt.2 heps
    constructor
    · unfold normalize_metric_higher_better
      rw [if_neg hne, if_neg hcond]
    · unfold normalize_metric_lower_better
      rw [if_neg hne, if_neg hcond]

/-- **C7 witness.** The amended statement applied to the motivating
sub-epsilon, non-identical input `[some 0, some 2⁻⁶⁰]`: both non-missing
entries map to 1. -/
theorem C7_normalize_amended_witness :
    normalize_metric_higher_better [some 0, some (1/2^60)]
      = [some 0, some ((1 : ℚ)/2^60)].map (Option.map fun _ => 1) :=
  ((C7_normalize_amended [some 0, some (1/2^60)]).1 (by decide) (by decide)).1

/-- The concatenation of the splitter's inner loop output is the current
session followed by the remaining input. -/
theorem splitGo_flatten (g : ℤ) (cur l : List ImageMetrics) :
    (splitGo g cur l).flatten = cur ++ l := by
  induction l generalizing cur with
  | nil => simp [splitGo]
  | cons img rest ih =>
    simp only [splitGo]
    split
    · simp [ih]
    · simp [ih]

/-- The concatenation of the split sessions is exactly the stably
timestamp-sorted input. -/
theorem split_into_sequences_flatten (cfg : SequenceAnalyzerConfig)
    (images : List ImageMetrics) :
    (split_into_sequences cfg images).flatten = images.insertionSort tsLe := by
  unfold split_into_sequences
  cases h : images.insertionSort tsLe with
  | nil => simp
  | cons first rest => simp [splitGo_flatten]

theorem tsKey_fixTs (img : ImageMetrics) : tsKey (fixTs img) = tsKey img := rfl

/-- Replacing missing timestamps by 0 commutes with the stable sort. -/
theorem insertionSort_map_fixTs (l : List ImageMetrics) :
    (l.map fixTs).insertionSort tsLe = (l.insertionSort tsLe).map fixTs :=
  (List.map_insertionSort tsLe tsLe fixTs l
    (fun a _ b _ => by
      unfold tsLe
      rw [tsKey_fixTs, tsKey_fixTs])).symm

/-- Replacing missing timestamps by 0 commutes with the session-splitting
loop: both the sort key and the gap computation read `timestamp.unwrap_or(0)`
on both sides of the comparison. -/
theorem splitGo_map_fixTs (g : ℤ) (cur l : List ImageMetrics) :
    splitGo g (cur.map fixTs) (l.map fixTs)
      = (splitGo g cur l).map (List.map fixTs) := by
  induction l generalizing cur with
  | nil => simp [splitGo]
  | cons img rest ih =>
    have hprev : ((cur.map fixTs).getLast?.bind fun p => p.timestamp).getD 0
        = (cur.getLast?.bind fun p => p.timestamp).getD 0 := by
      rw [List.getLast?_map]
      cases cur.getLast? with
      | none => rfl
      | some x => rfl
    simp only [List.map_cons, splitGo, hprev]
    have hcurr : (fixTs img).timestamp.getD 0 = img.timestamp.getD 0 := rfl
    rw [hcurr]
    split
    · have : [fixTs img] = [img].map fixTs := rfl
      rw [this, ih]
      simp
    · have : cur.map fixTs ++ [fixTs img] = (cur ++ [img]).map fixTs := by simp
      rw [this, ih]

/-- Replacing missing timestamps by 0 commutes with the whole splitter. -/
theorem split_into_sequences_map_fixTs (cfg : SequenceAnalyzerConfig)
    (images : List ImageMetrics) :
    split_into_sequences cfg (images.map fixTs)
      = (split_into_sequences cfg images).map (List.map fixTs) := by
  unfold split_into_sequences
  rw [insertionSort_map_fixTs]
  cases h : images.insertionSort tsLe with
  | nil => simp
  | cons first rest =>
    simp only [List.map_cons]
    have : [fixTs first] = [first].map fixTs := rfl
    rw [this, splitGo_map_fixTs]

/-- **C10.** The session splitter treats a missing timestamp as 0: the
concatenation of the returned sequences is a permutation of the input (no
image dropped or duplicated) that is ascending in the key
`timestamp.unwrap_or(0)`; splitting is unchanged when every missing timestamp
is literally replaced by 0 (so both the sort and the gap computation use 0 in
its place); and an image with a missing timestamp never appears after an
image with a positive timestamp. -/
theorem C10_split_into_sequences (cfg : SequenceAnalyzerConfig)
    (images : List ImageMetrics) :
    ((split_into_sequences cfg images).flatten).Perm images
    ∧ ((split_into_sequences cfg images).flatten).Pairwise tsLe
    ∧ split_into_sequences cfg (images.map fixTs)
        = (split_into_sequences cfg images).map (List.map fixTs)
    ∧ (∀ (i j : ℕ) (hi : i < (split_into_sequences cfg images).flatten.length)
        (hj : j < (split_into_sequences cfg images).flatten.length) (t : ℤ),
        ((split_into_sequences cfg images).flatten.get ⟨i, hi⟩).timestamp = none →
        ((split_into_sequences cfg images).flatten.get ⟨j, hj⟩).timestamp = some t →
        0 < t → i < j) := by
  have hflat := split_into_sequences_flatten cfg images
  have hpair : ((split_into_sequences cfg images).flatten).Pairwise tsLe := by
    rw [hflat]
    exact List.sorted_insertionSort tsLe images
  refine ⟨?_, hpair, split_into_sequences_map_fixTs cfg images, ?_⟩
  · rw [hflat]
    exact List.perm_insertionSort tsLe images
  · intro i j hi hj t hnone hsome hpos
    by_contra hij
    have hji : j ≤ i := Nat.le_of_not_lt hij
    rcases Nat.eq_or_lt_of_le hji with heq | hlt
    · have hfin : (⟨j, hj⟩ : Fin (split_into_sequences cfg images).flatten.length)
          = ⟨i, hi⟩ := by
        apply Fin.ext
        exact heq
      rw [hfin, hnone] at hsome
      cases hsome
    · have hr := List.pairwise_iff_get.1 hpair ⟨j, hj⟩ ⟨i, hi⟩ hlt
      unfold tsLe tsKey at hr
      rw [hnone, hsome] at hr
      simp only [Option.getD_some, Option.getD_none] at hr
      omega

/-- **C10 witness.** The splitter's guarantees at a concrete input holding a
missing timestamp. -/
theorem C10_split_into_sequences_witness :
    ((split_into_sequences SequenceAnalyzerConfig.default
      [⟨1, some 9000, none, none, none, none, none⟩,
       ⟨2, none, none, none, none, none, none⟩,
       ⟨3, some 100, none, none, none, none, none⟩]).flatten).Perm
      [⟨1, some 9000, none, none, none, none, none⟩,
       ⟨2, none, none, none, none, none, none⟩,
       ⟨3, some 100, none, none, none, none, none⟩] :=
  (C10_split_into_sequences SequenceAnalyzerConfig.default
    [⟨1, some 9000, none, none, none, none, none⟩,
     ⟨2, none, none, none, none, none, none⟩,
     ⟨3, some 100, none, none, none, none, none⟩]).1

/-- The short-circuit branch of `score_sequence` as a record literal. -/
theorem score_sequence_short (cfg : SequenceAnalyzerConfig) (s : List ImageMetrics)
    (tid : ℤ) (tn fn : String) (h : s.length < cfg.min_sequence_length) :
    score_sequence cfg s tid tn fn =
      { target_id := tid, target_name := tn, filter_name := fn
        session_start := s.head?.bind fun i => i.timestamp
        session_end := s.getLast?.bind fun i => i.timestamp
        image_count := s.length
        reference_values := ⟨none, none, none, none, none⟩
        images := s.map perfect_result
        summary := ⟨s.length, 0, 0, 0, 0, 0, false, false⟩ } := by
  unfold score_sequence
  rw [if_pos h]

/-- The main branch of `score_sequence` as a record literal. -/
theorem score_sequence_main (cfg : SequenceAnalyzerConfig) (s : List ImageMetrics)
    (tid : ℤ) (tn fn : String) (h : ¬s.length < cfg.min_sequence_length) :
    score_sequence cfg s tid tn fn =
      { target_id := tid, target_name := tn, filter_name := fn
        session_start := s.head?.bind fun i => i.timestamp
        session_end := s.getLast?.bind fun i => i.timestamp
        image_count := s.length
        reference_values :=
          { best_star_count := best_value s (fun i => i.star_count) true
            best_hfr := best_value s (fun i => i.hfr) false
            best_eccentricity := best_value s (fun i => i.eccentricity) false
            best_snr := best_value s (fun i => i.snr) true
            best_background := best_value s (fun i => i.background) false }
        images := classify_issues cfg (score_results cfg s) s
        summary := build_summary (classify_issues cfg (score_results cfg s) s) } := by
  unfold score_sequence
  rw [if_neg h]

/-- Both branches of `score_sequence` report the session length as
`image_count`. -/
theorem score_sequence_image_count (cfg : SequenceAnalyzerConfig)
    (s : List ImageMetrics) (tid : ℤ) (tn fn : String) :
    (score_sequence cfg s tid tn fn).image_count = s.length := by
  by_cases h : s.length < cfg.min_sequence_length
  · rw [score_sequence_short cfg s tid tn fn h]
  · rw [score_sequence_main cfg s tid tn fn h]

/-- **C5.** A produced sequence with fewer than `min_sequence_length` images
takes the short-circuit: every image gets quality 1.0, temporal anomaly 0.0,
all normalized metrics 1.0 and no category, and the summary counts every
image as excellent with all other buckets zero. -/
theorem C5_short_sequence (cfg : SequenceAnalyzerConfig) (images : List ImageMetrics)
    (tid : ℤ) (tn fn : String) :
    ∀ seq ∈ analyze cfg images tid tn fn,
      seq.image_count < cfg.min_sequence_length →
      (∀ r ∈ seq.images,
        r.quality_score = 1 ∧ r.temporal_anomaly_score = 0 ∧ r.category = none
        ∧ r.normalized_metrics = ⟨some 1, some 1, some 1, some 1, some 1⟩)
      ∧ seq.summary.excellent_count = seq.image_count
      ∧ seq.summary.good_count = 0 ∧ seq.summary.fair_count = 0
      ∧ seq.summary.poor_count = 0 ∧ seq.summary.bad_count = 0 := by
  intro seq hseq hcount
  obtain ⟨s, _, rfl⟩ := List.mem_map.1 hseq
  rw [score_sequence_image_count] at hcount
  rw [score_sequence_short cfg s tid tn fn hcount]
  constructor
  · intro r hr
    obtain ⟨img, _, rfl⟩ := List.mem_map.1 hr
    exact ⟨rfl, rfl, rfl, rfl⟩
  · exact ⟨rfl, rfl, rfl, rfl, rfl⟩

/-- **C5 witness.** The two-image demo session: its single produced sequence
is entirely "excellent". -/
theorem C5_short_sequence_witness :
    ((analyze SequenceAnalyzerConfig.default demoShort 1 "t" "L").headD
        dfltSeq).summary.excellent_count =
      ((analyze SequenceAnalyzerConfig.default demoShort 1 "t" "L").headD
        dfltSeq).image_count :=
  (C5_short_sequence SequenceAnalyzerConfig.default demoShort 1 "t" "L"
    ((analyze SequenceAnalyzerConfig.default demoShort 1 "t" "L").headD dfltSeq)
    (by decide) (by decide)).2.1

/-- Both deviation kinds are nonnegative (they are `max _ 0` or 0). -/
theorem dropDeviation_nonneg (v bl : Option ℚ) : 0 ≤ dropDeviation v bl := by
  unfold dropDeviation
  split
  · split
    · exact le_max_right _ _
    · exact le_refl 0
  · exact le_refl 0

theorem riseDeviation_nonneg (v bl : Option ℚ) : 0 ≤ riseDeviation v bl := by
  unfold riseDeviation
  split
  · split
    · exact le_max_right _ _
    · exact le_refl 0
  · exact le_refl 0

/-- With nonnegative temporal weights, every EWMA temporal score is
nonnegative. -/
theorem temporalGo_nonneg (cfg : SequenceAnalyzerConfig)
    (h1 : 0 ≤ cfg.temporal_weights.star_count)
    (h2 : 0 ≤ cfg.temporal_weights.background)
    (h3 : 0 ≤ cfg.temporal_weights.hfr) (h4 : 0 ≤ cfg.temporal_weights.snr) :
    ∀ (bls : TemporalBaselines) (l : List ImageMetrics),
      ∀ x ∈ temporalGo cfg bls l, 0 ≤ x := by
  intro bls l
  induction l generalizing bls with
  | nil => intro x hx; simp [temporalGo] at hx
  | cons img rest ih =>
    intro x hx
    simp only [temporalGo, List.mem_cons] at hx
    rcases hx with rfl | hx
    · have := mul_nonneg h1 (dropDeviation_nonneg img.star_count bls.bl_stars)
      have := mul_nonneg h2 (riseDeviation_nonneg img.background bls.bl_bg)
      have := mul_nonneg h3 (riseDeviation_nonneg img.hfr bls.bl_hfr)
      have := mul_nonneg h4 (dropDeviation_nonneg img.snr bls.bl_snr)
      positivity
    · exact ih _ x hx

/-- `getD` with default 0 on a list of nonnegatives is nonnegative. -/
theorem getD_nonneg {l : List ℚ} (h : ∀ x ∈ l, 0 ≤ x) :
    ∀ i : ℕ, 0 ≤ l.getD i 0 := by
  induction l with
  | nil => intro i; simp
  | cons a t ih =>
    intro i
    cases i with
    | zero => simpa using h a (by simp)
    | succ n => simpa using ih (fun x hx => h x (by simp [hx])) n

/-- `f64::clamp` into `[0, 1]` lands in `[0, 1]`. -/
theorem ratClamp01_nonneg (x : ℚ) : 0 ≤ ratClamp x 0 1 :=
  le_min (le_max_right x 0) zero_le_one

theorem ratClamp01_le_one (x : ℚ) : ratClamp x 0 1 ≤ 1 :=
  min_le_right _ _

/-- `classifyOne` only fills in the category: scores are untouched. -/
theorem classifyOne_preserves (cfg : SequenceAnalyzerConfig)
    (images : List ImageMetrics) (i : ℕ) (r : ImageQualityResult) :
    (classifyOne cfg images i r).quality_score = r.quality_score
    ∧ (classifyOne cfg images i r).temporal_anomaly_score
        = r.temporal_anomaly_score := by
  unfold classifyOne
  split
  · exact ⟨rfl, rfl⟩
  · exact ⟨rfl, rfl⟩

/-- `classifyGo` keeps the list length. -/
theorem classifyGo_length (cfg : SequenceAnalyzerConfig)
    (images : List ImageMetrics) :
    ∀ (k : ℕ) (rs : List ImageQualityResult),
      (classifyGo cfg images k rs).length = rs.length := by
  intro k rs
  induction rs generalizing k with
  | nil => rfl
  | cons r rest ih => simpa [classifyGo] using ih (k + 1)

/-- Every classified result inherits its scores from some pre-classification
result. -/
theorem classifyGo_mem (cfg : SequenceAnalyzerConfig) (images : List ImageMetrics) :
    ∀ (k : ℕ) (rs : List ImageQualityResult),
      ∀ r ∈ classifyGo cfg images k rs,
        ∃ r0 ∈ rs, r.quality_score = r0.quality_score
          ∧ r.temporal_anomaly_score = r0.temporal_anomaly_score := by
  intro k rs
  induction rs generalizing k with
  | nil => intro r hr; simp [classifyGo] at hr
  | cons r0 rest ih =>
    intro r hr
    simp only [classifyGo, List.mem_cons] at hr
    rcases hr with rfl | hr
    · exact ⟨r0, by simp, (classifyOne_preserves cfg images k r0).1,
        (classifyOne_preserves cfg images k r0).2⟩
    · obtain ⟨r1, hr1, hq, ht⟩ := ih (k + 1) r hr
      exact ⟨r1, by simp [hr1], hq, ht⟩

/-- `classify_issues` keeps the list length. -/
theorem classify_issues_length (cfg : SequenceAnalyzerConfig)
    (rs : List ImageQualityResult) (images : List ImageMetrics) :
    (classify_issues cfg rs images).length = rs.length := by
  unfold classify_issues
  split
  · rfl
  · exact classifyGo_length cfg images 0 rs

/-- Scores survive `classify_issues` unchanged. -/
theorem classify_issues_mem (cfg : SequenceAnalyzerConfig)
    (rs : List ImageQualityResult) (images : List ImageMetrics) :
    ∀ r ∈ classify_issues cfg rs images,
      ∃ r0 ∈ rs, r.quality_score = r0.quality_score
        ∧ r.temporal_anomaly_score = r0.temporal_anomaly_score := by
  unfold classify_issues
  split
  · intro r hr
    exact ⟨r, hr, rfl, rfl⟩
  · exact classifyGo_mem cfg images 0 rs

/-- The five-bucket total of a summary. -/
def bucketTotal (s : SequenceSummary) : ℕ :=
  s.excellent_count + s.good_count + s.fair_count + s.poor_count + s.bad_count

/-- Each result increments exactly one quality bucket. -/
theorem summaryStep_bucketTotal (s : SequenceSummary) (r : ImageQualityResult) :
    bucketTotal (summaryStep s r) = bucketTotal s + 1 := by
  unfold summaryStep bucketTotal
  split_ifs <;> rcases r.category with _ | c
  all_goals try cases c
  all_goals simp
  all_goals omega

/-- The five bucket counts of `build_summary` total the number of results. -/
theorem build_summary_bucketTotal (rs : List ImageQualityResult) :
    bucketTotal (build_summary rs) = rs.length := by
  unfold build_summary
  have key : ∀ (l : List ImageQualityResult) (acc : SequenceSummary),
      bucketTotal (l.foldl summaryStep acc) = bucketTotal acc + l.length := by
    intro l
    induction l with
    | nil => intro acc; simp
    | cons r rest ih =>
      intro acc
      simp only [List.foldl_cons, ih, summaryStep_bucketTotal, List.length_cons]
      omega
  simpa [bucketTotal] using key rs ⟨0, 0, 0, 0, 0, 0, false, false⟩

/-- `score_results` produces one result per image. -/
theorem score_results_length (cfg : SequenceAnalyzerConfig)
    (images : List ImageMetrics) :
    (score_results cfg images).length = images.length := by
  simp [score_results]

/-- Every pre-classification result has a clamped composite score and (for
nonnegative temporal weights) a nonnegative temporal score. -/
theorem score_results_bounds (cfg : SequenceAnalyzerConfig)
    (h1 : 0 ≤ cfg.temporal_weights.star_count)
    (h2 : 0 ≤ cfg.temporal_weights.background)
    (h3 : 0 ≤ cfg.temporal_weights.hfr) (h4 : 0 ≤ cfg.temporal_weights.snr)
    (images : List ImageMetrics) :
    ∀ r ∈ score_results cfg images,
      (0 ≤ r.quality_score ∧ r.quality_score ≤ 1)
      ∧ 0 ≤ r.temporal_anomaly_score := by
  intro r hr
  simp only [score_results, List.mem_map, List.mem_range] at hr
  obtain ⟨i, _, rfl⟩ := hr
  refine ⟨⟨ratClamp01_nonneg _, ratClamp01_le_one _⟩, ?_⟩
  exact getD_nonneg
    (temporalGo_nonneg cfg h1 h2 h3 h4 ⟨none, none, none, none⟩ images) i

/-- **C1.** For every sequence the analyzer produces (any config with
nonnegative temporal weights, any target, filter and input list): every
per-image result has `0 ≤ quality_score ≤ 1` and
`0 ≤ temporal_anomaly_score`, and the five summary bucket counts sum to the
sequence's `image_count`. -/
theorem C1_analyzer_invariants (cfg : SequenceAnalyzerConfig)
    (h1 : 0 ≤ cfg.temporal_weights.star_count)
    (h2 : 0 ≤ cfg.temporal_weights.background)
    (h3 : 0 ≤ cfg.temporal_weights.hfr) (h4 : 0 ≤ cfg.temporal_weights.snr)
    (images : List ImageMetrics) (tid : ℤ) (tn fn : String) :
    ∀ seq ∈ analyze cfg images tid tn fn,
      (∀ r ∈ seq.images,
        0 ≤ r.quality_score ∧ r.quality_score ≤ 1 ∧ 0 ≤ r.temporal_anomaly_score)
      ∧ seq.summary.excellent_count + seq.summary.good_count
          + seq.summary.fair_count + seq.summary.poor_count
          + seq.summary.bad_count = seq.image_count := by
  intro seq hseq
  obtain ⟨s, _, rfl⟩ := List.mem_map.1 hseq
  by_cases h : s.length < cfg.min_sequence_length
  · rw [score_sequence_short cfg s tid tn fn h]
    constructor
    · intro r hr
      obtain ⟨img, _, rfl⟩ := List.mem_map.1 hr
      refine ⟨zero_le_one, le_refl 1, le_refl 0⟩
    · simp
  · rw [score_sequence_main cfg s tid tn fn h]
    constructor
    · intro r hr
      obtain ⟨r0, hr0, hq, ht⟩ := classify_issues_mem cfg (score_results cfg s) s r hr
      obtain ⟨⟨hq0, hq1⟩, ht0⟩ := score_results_bounds cfg h1 h2 h3 h4 s r0 hr0
      rw [hq, ht]
      exact ⟨hq0, hq1, ht0⟩
    · have hb := build_summary_bucketTotal (classify_issues cfg (score_results cfg s) s)
      rw [classify_issues_length, score_results_length] at hb
      simpa [bucketTotal] using hb

/-- **C1 witness.** The analyzer invariants at the default config on the
six-image demo session. -/
theorem C1_analyzer_invariants_witness :
    ((analyze SequenceAnalyzerConfig.default demoSession 1 "M42" "L").headD
        dfltSeq).summary.excellent_count
      + ((analyze SequenceAnalyzerConfig.default demoSession 1 "M42" "L").headD
        dfltSeq).summary.good_count
      + ((analyze SequenceAnalyzerConfig.default demoSession 1 "M42" "L").headD
        dfltSeq).summary.fair_count
      + ((analyze SequenceAnalyzerConfig.default demoSession 1 "M42" "L").headD
        dfltSeq).summary.poor_count
      + ((analyze SequenceAnalyzerConfig.default demoSession 1 "M42" "L").headD
        dfltSeq).summary.bad_count
      = ((analyze SequenceAnalyzerConfig.default demoSession 1 "M42" "L").headD
        dfltSeq).image_count :=
  (C1_analyzer_invariants SequenceAnalyzerConfig.default (by decide) (by decide)
    (by decide) (by decide) demoSession 1 "M42" "L"
    ((analyze SequenceAnalyzerConfig.default demoSession 1 "M42" "L").headD dfltSeq)
    (by decide)).2

/-- The left fold used by `max_by` computes a maximum of seed and elements. -/
theorem foldl_max_spec (vs : List ℚ) (v : ℚ) :
    (vs.foldl (fun acc x => if acc ≤ x then x else acc) v = v
      ∨ vs.foldl (fun acc x => if acc ≤ x then x else acc) v ∈ vs)
    ∧ v ≤ vs.foldl (fun acc x => if acc ≤ x then x else acc) v
    ∧ ∀ w ∈ vs, w ≤ vs.foldl (fun acc x => if acc ≤ x then x else acc) v := by
  induction vs generalizing v with
  | nil => exact ⟨Or.inl rfl, le_refl v, by simp⟩
  | cons x xs ih =>
    simp only [List.foldl_cons]
    obtain ⟨hmem, hseed, hbound⟩ := ih (if v ≤ x then x else v)
    have hvx : v ≤ if v ≤ x then x else v := by
      split
      · assumption
      · exact le_refl v
    have hxx : x ≤ if v ≤ x then x else v := by
      split
      · exact le_refl x
      · exact le_of_not_le (by assumption)
    refine ⟨?_, le_trans hvx hseed, ?_⟩
    · rcases hmem with heq | hmem
      · rw [heq]
        split
        · exact Or.inr (by simp)
        · exact Or.inl rfl
      · exact Or.inr (by simp [hmem])
    · intro w hw
      rcases List.mem_cons.1 hw with rfl | hw
      · exact le_trans hxx hseed
      · exact hbound w hw

/-- The left fold used by `min_by` computes a minimum of seed and elements. -/
theorem foldl_min_spec (vs : List ℚ) (v : ℚ) :
    (vs.foldl (fun acc x => if x < acc then x else acc) v = v
      ∨ vs.foldl (fun acc x => if x < acc then x else acc) v ∈ vs)
    ∧ vs.foldl (fun acc x => if x < acc then x else acc) v ≤ v
    ∧ ∀ w ∈ vs, vs.foldl (fun acc x => if x < acc then x else acc) v ≤ w := by
  induction vs generalizing v with
  | nil => exact ⟨Or.inl rfl, le_refl v, by simp⟩
  | cons x xs ih =>
    simp only [List.foldl_cons]
    obtain ⟨hmem, hseed, hbound⟩ := ih (if x < v then x else v)
    have hvx : (if x < v then x else v) ≤ v := by
      split
      · exact le_of_lt (by assumption)
      · exact le_refl v
    have hxx : (if x < v then x else v) ≤ x := by
      split
      · exact le_refl x
      · exact le_of_not_lt (by assumption)
    refine ⟨?_, le_trans hseed hvx, ?_⟩
    · rcases hmem with heq | hmem
      · rw [heq]
        split
        · exact Or.inr (by simp)
        · exact Or.inl rfl
      · exact Or.inr (by simp [hmem])
    · intro w hw
      rcases List.mem_cons.1 hw with rfl | hw
      · exact le_trans hseed hxx
      · exact hbound w hw

/-- `best_value` is null exactly when the metric is missing in every image. -/
theorem best_value_eq_none_iff (images : List ImageMetrics)
    (f : ImageMetrics → Option ℚ) (hb : Bool) :
    best_value images f hb = none ↔ ∀ img ∈ images, f img = none := by
  unfold best_value
  cases h : images.filterMap f with
  | nil =>
    simp only [true_iff]
    exact List.filterMap_eq_nil_iff.1 h
  | cons v vs =>
    simp only [reduceCtorEq, false_iff]
    intro hall
    rw [List.filterMap_eq_nil_iff.2 hall] at h
    cases h

/-- A non-null higher-better `best_value` is an attained maximum. -/
theorem best_value_true_spec (images : List ImageMetrics)
    (f : ImageMetrics → Option ℚ) (v : ℚ)
    (h : best_value images f true = some v) :
    (∃ img ∈ images, f img = some v)
    ∧ ∀ img ∈ images, ∀ w, f img = some w → w ≤ v := by
  unfold best_value at h
  cases hfm : images.filterMap f with
  | nil => rw [hfm] at h; cases h
  | cons a vs =>
    rw [hfm] at h
    simp only [if_true, Option.some.injEq, cond_true] at h
    obtain ⟨hmem, hseed, hbound⟩ := foldl_max_spec vs a
    have hvmem : v ∈ images.filterMap f := by
      rw [hfm, ← h]
      rcases hmem with heq | hmem
      · exact List.mem_cons.2 (Or.inl heq)
      · exact List.mem_cons.2 (Or.inr hmem)
    constructor
    · obtain ⟨img, himg, hf⟩ := List.mem_filterMap.1 hvmem
      exact ⟨img, himg, hf⟩
    · intro img himg w hw
      have hwmem : w ∈ images.filterMap f := List.mem_filterMap.2 ⟨img, himg, hw⟩
      rw [hfm] at hwmem
      rcases List.mem_cons.1 hwmem with rfl | hwmem
      · rw [← h]
        exact hseed
      · rw [← h]
        exact hbound w hwmem

/-- A non-null lower-better `best_value` is an attained minimum. -/
theorem best_value_false_spec (images : List ImageMetrics)
    (f : ImageMetrics → Option ℚ) (v : ℚ)
    (h : best_value images f false = some v) :
    (∃ img ∈ images, f img = some v)
    ∧ ∀ img ∈ images, ∀ w, f img = some w → v ≤ w := by
  unfold best_value at h
  cases hfm : images.filterMap f with
  | nil => rw [hfm] at h; cases h
  | cons a vs =>
    rw [hfm] at h
    simp only [Option.some.injEq, cond_false, Bool.false_eq_true, if_false] at h
    obtain ⟨hmem, hseed, hbound⟩ := foldl_min_spec vs a
    have hvmem : v ∈ images.filterMap f := by
      rw [hfm]
      rcases hmem with heq | hmem
      · rw [← h]
        exact List.mem_cons.2 (Or.inl heq)
      · rw [← h]
        exact List.mem_cons.2 (Or.inr hmem)
    constructor
    · obtain ⟨img, himg, hf⟩ := List.mem_filterMap.1 hvmem
      exact ⟨img, himg, hf⟩
    · intro img himg w hw
      have hwmem : w ∈ images.filterMap f := List.mem_filterMap.2 ⟨img, himg, hw⟩
      rw [hfm] at hwmem
      rcases List.mem_cons.1 hwmem with rfl | hwmem
      · rw [← h]
        exact hseed
      · rw [← h]
        exact hbound w hwmem

/-- **C3 counterexample.** A one-image session with a present star count: the
short-circuit leaves every reference value null, so `best_star_count` is null
although the metric is not missing in the sequence's (single) image. -/
theorem C3_reference_values_counterexample :
    ((analyze SequenceAnalyzerConfig.default [c3img] 7 "t" "L").headD
        dfltSeq).reference_values.best_star_count = none
    ∧ ((analyze SequenceAnalyzerConfig.default [c3img] 7 "t" "L").headD
        dfltSeq).images.map (fun r => r.image_id) = [7]
    ∧ c3img.star_count = some 5 := by decide

/-- **C3 (amended).** For every produced sequence of at least
`min_sequence_length` images, each reference value is null exactly when the
metric is missing in every image of the session, and when non-null it is the
best value observed (an attained maximum for star count and SNR, an attained
minimum for HFR, eccentricity and background); a shorter sequence takes the
short-circuit and leaves all five reference values null regardless of the
metrics present. -/
theorem C3_reference_values_amended (cfg : SequenceAnalyzerConfig)
    (s : List ImageMetrics) (tid : ℤ) (tn fn : String) :
    (cfg.min_sequence_length ≤ s.length →
      ((score_sequence cfg s tid tn fn).reference_values.best_star_count = none
        ↔ ∀ img ∈ s, img.star_count = none)
      ∧ (∀ v, (score_sequence cfg s tid tn fn).reference_values.best_star_count = some v →
          (∃ img ∈ s, img.star_count = some v)
          ∧ ∀ img ∈ s, ∀ w, img.star_count = some w → w ≤ v)
      ∧ ((score_sequence cfg s tid tn fn).reference_values.best_snr = none
        ↔ ∀ img ∈ s, img.snr = none)
      ∧ (∀ v, (score_sequence cfg s tid tn fn).reference_values.best_snr = some v →
          (∃ img ∈ s, img.snr = some v)
          ∧ ∀ img ∈ s, ∀ w, img.snr = some w → w ≤ v)
      ∧ ((score_sequence cfg s tid tn fn).reference_values.best_hfr = none
        ↔ ∀ img ∈ s, img.hfr = none)
      ∧ (∀ v, (score_sequence cfg s tid tn fn).reference_values.best_hfr = some v →
          (∃ img ∈ s, img.hfr = some v)
          ∧ ∀ img ∈ s, ∀ w, img.hfr = some w → v ≤ w)
      ∧ ((score_sequence cfg s tid tn fn).reference_values.best_eccentricity = none
        ↔ ∀ img ∈ s, img.eccentricity = none)
      ∧ (∀ v, (score_sequence cfg s tid tn fn).reference_values.best_eccentricity = some v →
          (∃ img ∈ s, img.eccentricity = some v)
          ∧ ∀ img ∈ s, ∀ w, img.eccentricity = some w → v ≤ w)
      ∧ ((score_sequence cfg s tid tn fn).reference_values.best_background = none
        ↔ ∀ img ∈ s, img.background = none)
      ∧ (∀ v, (score_sequence cfg s tid tn fn).reference_values.best_background = some v →
          (∃ img ∈ s, img.background = some v)
          ∧ ∀ img ∈ s, ∀ w, img.background = some w → v ≤ w))
    ∧ (s.length < cfg.min_sequence_length →
      (score_sequence cfg s tid tn fn).reference_values
        = ⟨none, none, none, none, none⟩) := by
  constructor
  · intro hlen
    have h : ¬s.length < cfg.min_sequence_length := not_lt.2 hlen
    rw [score_sequence_main cfg s tid tn fn h]
    refine ⟨best_value_eq_none_iff s _ true, ?_,
      best_value_eq_none_iff s _ true, ?_,
      best_value_eq_none_iff s _ false, ?_,
      best_value_eq_none_iff s _ false, ?_,
      best_value_eq_none_iff s _ false, ?_⟩
    · exact fun v hv => best_value_true_spec s _ v hv
    · exact fun v hv => best_value_true_spec s _ v hv
    · exact fun v hv => best_value_false_spec s _ v hv
    · exact fun v hv => best_value_false_spec s _ v hv
    · exact fun v hv => best_value_false_spec s _ v hv
  · intro h
    rw [score_sequence_short cfg s tid tn fn h]

/-- **C3 witness.** The amended statement at the demo session: its star-count
reference is an attained maximum. -/
theorem C3_reference_values_amended_witness :
    (∃ img ∈ demoSession, img.star_count
      = (score_sequence SequenceAnalyzerConfig.default demoSession 1 "M42" "L"
          ).reference_values.best_star_count)
    ∧ ∀ img ∈ demoSession, ∀ w, img.star_count = some w →
        w ≤ 345 := by
  have h := ((C3_reference_values_amended SequenceAnalyzerConfig.default demoSession
    1 "M42" "L").1 (by decide)).2.1 345 (by decide)
  obtain ⟨⟨img, himg, hf⟩, hbound⟩ := h
  have hbest : (score_sequence SequenceAnalyzerConfig.default demoSession 1 "M42" "L"
      ).reference_values.best_star_count = some 345 := by decide
  exact ⟨⟨img, himg, by rw [hf, hbest]⟩, hbound⟩

/-- `classifyGo` rewrites the result at position `j` with the classifier at
index `k + j`. -/
theorem classifyGo_getElem? (cfg : SequenceAnalyzerConfig)
    (images : List ImageMetrics) :
    ∀ (rs : List ImageQualityResult) (k j : ℕ),
      (classifyGo cfg images k rs)[j]?
        = (rs[j]?).map (classifyOne cfg images (k + j)) := by
  intro rs
  induction rs with
  | nil => intro k j; simp [classifyGo]
  | cons r rest ih =>
    intro k j
    cases j with
    | zero => simp [classifyGo]
    | succ n =>
      simp only [classifyGo, List.getElem?_cons_succ]
      rw [ih (k + 1) n]
      have : k + 1 + n = k + (n + 1) := by omega
      rw [this]

/-- **C4 counterexample.** In `c4imgs`, frame 3 has final quality below 0.7,
a 90% star-count drop (> 0.25), and a background rise of exactly 0.10 — the
claim demands `PossibleObstruction` for a rise of at most 0.10, but the
code's strict `bg_stable` test skips both cloud rules and falls through to
`UnknownDegradation`. -/
theorem C4_classification_counterexample :
    compute_fractional_drop c4imgs 3 (fun m => m.star_count) = 9/10
    ∧ compute_fractional_rise c4imgs 3 (fun m => m.background) = 10/100
    ∧ ((analyze SequenceAnalyzerConfig.default c4imgs 1 "t" "L").headD
        dfltSeq).image_count = 4
    ∧ (((analyze SequenceAnalyzerConfig.default c4imgs 1 "t" "L").headD
        dfltSeq).images.getD 3 dfltResult).quality_score < 7/10
    ∧ (((analyze SequenceAnalyzerConfig.default c4imgs 1 "t" "L").headD
        dfltSeq).images.getD 3 dfltResult).category
        = some IssueCategory.unknownDegradation := by decide

/-- **C4 (amended).** For every scored sequence of at least
`min_sequence_length` (and at least 2) images with the default thresholds,
an image with final quality below 0.7 whose star-count drop exceeds 0.25 is
categorized `LikelyClouds` when the background rise strictly exceeds 0.10 and
`PossibleObstruction` when it is strictly below 0.10 (at exactly 0.10 neither
of the first two rules fires: the code's `bg_stable` test is strict). -/
theorem C4_classification_amended (cfg : SequenceAnalyzerConfig)
    (hsd : cfg.star_drop_threshold = 25/100) (hbr : cfg.bg_rise_threshold = 10/100)
    (s : List ImageMetrics) (tid : ℤ) (tn fn : String)
    (hlen : cfg.min_sequence_length ≤ s.length) (h2 : 2 ≤ s.length)
    (i : ℕ) (r : ImageQualityResult)
    (hr : (score_sequence cfg s tid tn fn).images[i]? = some r)
    (hq : r.quality_score < 7/10)
    (hdrop : 25/100 < compute_fractional_drop s i fun m => m.star_count) :
    ((10 : ℚ)/100 < compute_fractional_rise s i (fun m => m.background) →
      r.category = some IssueCategory.likelyClouds)
    ∧ (compute_fractional_rise s i (fun m => m.background) < 10/100 →
      r.category = some IssueCategory.possibleObstruction) := by
  simp only [score_sequence_main cfg s tid tn fn (not_lt.2 hlen)] at hr
  unfold classify_issues at hr
  rw [if_neg (not_lt.2 h2)] at hr
  rw [classifyGo_getElem?] at hr
  simp only [Nat.zero_add] at hr
  obtain ⟨r0, _, rfl⟩ := Option.map_eq_some'.1 hr
  have hq0 : r0.quality_score < 7/10 := by
    rw [← (classifyOne_preserves cfg s i r0).1]
    exact hq
  have hns : ¬(7/10 ≤ r0.quality_score) := not_le.2 hq0
  have hdrop' : cfg.star_drop_threshold
      < compute_fractional_drop s i fun m => m.star_count := by
    rw [hsd]; exact hdrop
  constructor
  · intro hbg
    have hc1 : cfg.star_drop_threshold
          < compute_fractional_drop s i (fun m => m.star_count)
        ∧ cfg.bg_rise_threshold
          < compute_fractional_rise s i (fun m => m.background) :=
      ⟨hdrop', by rw [hbr]; exact hbg⟩
    simp only [classifyOne, hns, if_false]
    rw [if_pos hc1]
  · intro hbg
    have hnc1 : ¬(cfg.star_drop_threshold
          < compute_fractional_drop s i (fun m => m.star_count)
        ∧ cfg.bg_rise_threshold
          < compute_fractional_rise s i (fun m => m.background)) := by
      rintro ⟨_, hgt⟩
      rw [hbr] at hgt
      exact absurd hgt (not_lt.2 hbg.le)
    have hc2 : cfg.star_drop_threshold
          < compute_fractional_drop s i (fun m => m.star_count)
        ∧ compute_fractional_rise s i (fun m => m.background)
          < cfg.bg_rise_threshold :=
      ⟨hdrop', by rw [hbr]; exact hbg⟩
    simp only [classifyOne, hns, if_false]
    rw [if_neg hnc1, if_pos hc2]

/-- **C4 witness.** A pure obstruction pattern (90% star drop, flat
background) in a 4-image session: frame 3 is categorized
`PossibleObstruction`. -/
theorem C4_classification_amended_witness :
    ((score_sequence SequenceAnalyzerConfig.default c4bimgs 1 "t" "L").images.getD 3
      dfltResult).category = some IssueCategory.possibleObstruction :=
  (C4_classification_amended SequenceAnalyzerConfig.default rfl rfl c4bimgs 1 "t" "L"
    (by decide) (by decide) 3
    ((score_sequence SequenceAnalyzerConfig.default c4bimgs 1 "t" "L").images.getD 3
      dfltResult)
    (by decide) (by decide) (by decide)).2 (by decide)

end PsfGuard
